import Mathlib

/-!
# SFE_CC3000_Server: connection-slot pool and client handles

A shallow embedding of `SFE_CC3000_Server.cpp` / `SFE_CC3000_Server.h`.

* The per-connection class `SFE_CC3000_Client` and the CC3000 socket primitives are
  declared in headers that are not part of these two files; they enter the model as the
  parameter records `ClientOps` and `SocketApi`.
* Pointers to clients are recorded as the offset `k` of `&clients_[k]`; dereferencing an
  offset outside the array is a fault (`none`).
* Calls to `accept` and to a client's `write` are recorded in ghost logs so that
  statements about which external calls were made can be expressed.
-/

namespace SFE_CC3000

/-! ## Machine integers -/

/-- Conversion of an integer to `uint32_t`. -/
def toUInt32 (x : Int) : Nat := (x % 4294967296).toNat

/-- Conversion of an integer to `int16_t`. -/
def toInt16 (x : Int) : Int := (x + 32768) % 65536 - 32768

/-! ## External collaborators -/

/-- The capacity of the pool: `#define SERVER_MAX_CLIENTS 3`. -/
abbrev SERVER_MAX_CLIENTS : Nat := 3

/-- The interface of the external class `SFE_CC3000_Client`, over an abstract type `C` of
client objects.  `connected`, `available` and the boolean conversion are observations of
the object; the other members return their result together with the object afterwards.
Buffers are lists of bytes, `size_t` results are naturals. -/
structure ClientOps (C : Type) where
  /-- The default constructor, used for the elements of `clients_`. -/
  dflt : C
  /-- The constructor `SFE_CC3000_Client(cc3000, soc)`. -/
  ofSocket : Nat → Int → C
  /-- The conversion `operator bool`. -/
  toBool : C → Bool
  /-- The member `connect(IPAddress ip, uint16_t port)`. -/
  connectIp : C → Nat → Nat → Int × C
  /-- The member `connect(const char *host, uint16_t port)`. -/
  connectHost : C → List Nat → Nat → Int × C
  /-- The member `connected()`. -/
  connected : C → Bool
  /-- The member `available()`. -/
  available : C → Int
  /-- The member `read()`. -/
  read : C → Int × C
  /-- The member `read(buf, size)`: the result and the bytes stored in `buf`. -/
  readBuf : C → Nat → (Int × List Nat) × C
  /-- The member `peek()`. -/
  peek : C → Int × C
  /-- The member `write(uint8_t c)`. -/
  writeByte : C → Nat → Nat × C
  /-- The member `write(buf, size)`. -/
  write : C → List Nat → Nat → Nat × C
  /-- The member `close()`. -/
  close : C → Int × C
  /-- The member `flush()`. -/
  flush : C → C
  /-- The member `stop()`. -/
  stop : C → C

/-- The socket primitives called by the server.  Each field is the value the primitive
returns for the arguments the server passes; `socket` stands for
`socket(AF_INET, SOCK_STREAM, IPPROTO_TCP)`, `setsockopt soc` for the call that makes
`accept` non-blocking, `bind soc port` and `listen soc backlog` for the calls of those
names, and `accept k sd` for the call of `accept(sd, NULL, NULL)` that is made after `k`
earlier calls of `accept`. -/
structure SocketApi where
  netapp_timeout_values : Nat → Nat → Nat → Nat → Int
  socket : Int
  setsockopt : Int → Int
  bind : Int → Nat → Int
  listen : Int → Int → Int
  accept : Nat → Nat → Int

/-- The array `SFE_CC3000_Client clients_[SERVER_MAX_CLIENTS]`. -/
abbrev Slots (C : Type) := Fin SERVER_MAX_CLIENTS → C

/-- Ghost record of one call of `accept`: the slot it was made for, the descriptor passed
and the value returned. -/
structure AcceptCall where
  slot : Fin SERVER_MAX_CLIENTS
  sd : Nat
  result : Int
deriving DecidableEq

/-! ## `SFE_CC3000_ClientRef` -/

/-- The class `SFE_CC3000_ClientRef`: `client_` is `none` for `NULL` and `some k` for the
address `&clients_[k]`. -/
structure SFE_CC3000_ClientRef where
  client_ : Option Int
deriving DecidableEq

/-- The element of `clients_` an offset designates, when there is one. -/
def slotAt (k : Int) : Option (Fin SERVER_MAX_CLIENTS) :=
  if h : 0 ≤ k ∧ k < (SERVER_MAX_CLIENTS : Int) then some ⟨k.toNat, by omega⟩ else none

/-- The pattern `HANDLE_NULL(client_, r); return client_->f(...)`: with a null binding the
result is `r` and no client is used; otherwise the bound client is dereferenced (a fault
when the offset is outside the array) and `f` is applied to it. -/
def handleNull {C R : Type} (mem : Slots C) (r : SFE_CC3000_ClientRef) (sentinel : R)
    (f : C → R × C) : Option (R × Slots C) :=
  match r.client_ with
  | none => some (sentinel, mem)
  | some k =>
    match slotAt k with
    | none => none
    | some i => some ((f (mem i)).1, Function.update mem i (f (mem i)).2)

/-- The pattern `if (client_ != NULL) client_->f()` of `flush` and `stop`. -/
def ifBound {C : Type} (mem : Slots C) (r : SFE_CC3000_ClientRef) (f : C → C) :
    Option (Slots C) :=
  match r.client_ with
  | none => some mem
  | some k =>
    match slotAt k with
    | none => none
    | some i => some (Function.update mem i (f (mem i)))

namespace SFE_CC3000_ClientRef

variable {C : Type}

/-- The conversion `operator bool`: `client_ != NULL && *client_`. -/
def toBool (ops : ClientOps C) (mem : Slots C) (r : SFE_CC3000_ClientRef) : Option Bool :=
  match r.client_ with
  | none => some false
  | some k =>
    match slotAt k with
    | none => none
    | some i => some (ops.toBool (mem i))

/-- The member `connect(IPAddress ip, uint16_t port)`. -/
def connectIp (ops : ClientOps C) (mem : Slots C) (r : SFE_CC3000_ClientRef)
    (ip port : Nat) : Option (Int × Slots C) :=
  handleNull mem r 0 (fun c => ops.connectIp c ip port)

/-- The member `connect(const char *host, uint16_t port)`. -/
def connectHost (ops : ClientOps C) (mem : Slots C) (r : SFE_CC3000_ClientRef)
    (host : List Nat) (port : Nat) : Option (Int × Slots C) :=
  handleNull mem r 0 (fun c => ops.connectHost c host port)

/-- The member `connected()`, of result type `uint8_t`. -/
def connected (ops : ClientOps C) (mem : Slots C) (r : SFE_CC3000_ClientRef) :
    Option (Nat × Slots C) :=
  handleNull mem r 0 (fun c => (if ops.connected c then 1 else 0, c))

/-- The member `write(uint8_t c)`. -/
def writeByte (ops : ClientOps C) (mem : Slots C) (r : SFE_CC3000_ClientRef) (b : Nat) :
    Option (Nat × Slots C) :=
  handleNull mem r 0 (fun c => ops.writeByte c b)

/-- The member `read()`. -/
def read (ops : ClientOps C) (mem : Slots C) (r : SFE_CC3000_ClientRef) :
    Option (Int × Slots C) :=
  handleNull mem r 0 (fun c => ops.read c)

/-- The member `close()`. -/
def close (ops : ClientOps C) (mem : Slots C) (r : SFE_CC3000_ClientRef) :
    Option (Int × Slots C) :=
  handleNull mem r 0 (fun c => ops.close c)

/-- The member `available()`. -/
def available (ops : ClientOps C) (mem : Slots C) (r : SFE_CC3000_ClientRef) :
    Option (Int × Slots C) :=
  handleNull mem r 0 (fun c => (ops.available c, c))

/-- The member `read(uint8_t *buf, size_t size)`; with a null binding `buf` is not
written, which the empty list of stored bytes records. -/
def readBuf (ops : ClientOps C) (mem : Slots C) (r : SFE_CC3000_ClientRef) (size : Nat) :
    Option ((Int × List Nat) × Slots C) :=
  handleNull mem r (0, []) (fun c => ops.readBuf c size)

/-- The member `write(const uint8_t *buf, size_t size)`. -/
def write (ops : ClientOps C) (mem : Slots C) (r : SFE_CC3000_ClientRef)
    (buf : List Nat) (size : Nat) : Option (Nat × Slots C) :=
  handleNull mem r 0 (fun c => ops.write c buf size)

/-- The member `peek()`. -/
def peek (ops : ClientOps C) (mem : Slots C) (r : SFE_CC3000_ClientRef) :
    Option (Int × Slots C) :=
  handleNull mem r 0 (fun c => ops.peek c)

/-- The member `flush()`. -/
def flush (ops : ClientOps C) (mem : Slots C) (r : SFE_CC3000_ClientRef) :
    Option (Slots C) :=
  ifBound mem r ops.flush

/-- The member `stop()`. -/
def stop (ops : ClientOps C) (mem : Slots C) (r : SFE_CC3000_ClientRef) :
    Option (Slots C) :=
  ifBound mem r ops.stop

end SFE_CC3000_ClientRef

/-! ## `SFE_CC3000_Server` -/

/-- The data members of the class `SFE_CC3000_Server`; `cc3000_` identifies the adapter
object and `listenSocket_` is a `uint32_t`. -/
structure SFE_CC3000_Server (C : Type) where
  cc3000_ : Nat
  clients_ : Slots C
  port_ : Nat
  listenSocket_ : Nat

/-- The value `listenSocket_` has after `listenSocket_ = -1`. -/
def INVALID_SOCKET : Nat := toUInt32 (-1)

/-- The indices `0, 1, 2` a loop `for (int i = 0; i < SERVER_MAX_CLIENTS; ++i)` visits,
in the order it visits them. -/
def slotIndices : List (Fin SERVER_MAX_CLIENTS) := List.finRange SERVER_MAX_CLIENTS

/-- The state of the loop of `acceptNewConnections`. -/
structure AcceptState (C : Type) where
  clients : Slots C
  log : List AcceptCall
  newClientCreated : Bool

/-- The result of `availableIndex`: the index returned, the object `newClient` points to
afterwards (`none` for a null pointer), the server and the log of `accept` calls. -/
structure AvailableResult (C : Type) where
  index : Int
  newClient : Option Bool
  server : SFE_CC3000_Server C
  log : List AcceptCall

namespace SFE_CC3000_Server

variable {C : Type}

/-- The constructor `SFE_CC3000_Server(cc3000, port)`. -/
def new (ops : ClientOps C) (cc3000 port : Nat) : SFE_CC3000_Server C :=
  { cc3000_ := cc3000, clients_ := fun _ => ops.dflt, port_ := port,
    listenSocket_ := INVALID_SOCKET }

/-- The member `begin()`. -/
def begin (api : SocketApi) (s : SFE_CC3000_Server C) : SFE_CC3000_Server C :=
  if api.netapp_timeout_values 14400 3600 30 0 ≠ 0 then s
  else
    let soc := toInt16 api.socket
    if soc < 0 then s
    else if api.setsockopt soc < 0 then s
    else if api.bind soc s.port_ < 0 then s
    else if api.listen soc 0 < 0 then s
    else { s with listenSocket_ := toUInt32 soc }

/-- The body of the loop of `acceptNewConnections`, run over the indices still to visit. -/
def acceptLoop (ops : ClientOps C) (api : SocketApi) (cc3000 listenSocket : Nat) :
    List (Fin SERVER_MAX_CLIENTS) → AcceptState C → AcceptState C
  | [], st => st
  | i :: rest, st =>
    if ops.connected (st.clients i) then acceptLoop ops api cc3000 listenSocket rest st
    else
      let soc := api.accept st.log.length listenSocket
      let log := st.log ++ [{ slot := i, sd := listenSocket, result := soc }]
      if soc > -1 then
        acceptLoop ops api cc3000 listenSocket rest
          { clients := Function.update st.clients i (ops.ofSocket cc3000 soc), log := log,
            newClientCreated := true }
      else
        acceptLoop ops api cc3000 listenSocket rest { st with log := log }

/-- The member `acceptNewConnections()`: the result, the server afterwards and the log of
`accept` calls extended by those of this call. -/
def acceptNewConnections (ops : ClientOps C) (api : SocketApi) (s : SFE_CC3000_Server C)
    (log : List AcceptCall) : Bool × SFE_CC3000_Server C × List AcceptCall :=
  let st := acceptLoop ops api s.cc3000_ s.listenSocket_ slotIndices
    { clients := s.clients_, log := log, newClientCreated := false }
  (st.newClientCreated, { s with clients_ := st.clients }, st.log)

/-- The scan of `availableIndex` for the first client ready to read; the index is
returned as `int8_t`, which holds every index below `SERVER_MAX_CLIENTS` unchanged. -/
def scanReady (ops : ClientOps C) (clients : Slots C) : List (Fin SERVER_MAX_CLIENTS) → Int
  | [] => -1
  | i :: rest =>
    if ops.connected (clients i) && decide (ops.available (clients i) > 0) then (i.val : Int)
    else scanReady ops clients rest

/-- The member `availableIndex(bool *newClient)`. -/
def availableIndex (ops : ClientOps C) (api : SocketApi) (s : SFE_CC3000_Server C)
    (log : List AcceptCall) (newClient : Option Bool) : AvailableResult C :=
  let r := acceptNewConnections ops api s log
  { index := scanReady ops r.2.1.clients_ slotIndices,
    newClient := match newClient with
      | some _ => some r.1
      | none => none,
    server := r.2.1,
    log := r.2.2 }

/-- The member `getClientRef(int8_t clientIndex)`. -/
def getClientRef (clientIndex : Int) : SFE_CC3000_ClientRef :=
  if clientIndex ≠ -1 then { client_ := some clientIndex } else { client_ := none }

/-- The member `available()`: the handle, the server and the log afterwards. -/
def available (ops : ClientOps C) (api : SocketApi) (s : SFE_CC3000_Server C)
    (log : List AcceptCall) : SFE_CC3000_ClientRef × SFE_CC3000_Server C × List AcceptCall :=
  let r := availableIndex ops api s log none
  (getClientRef r.index, r.server, r.log)

/-- The state of the loop of `write(buffer, size)`: the clients, the counter `written`
and the ghost list of the slots whose `write` was called. -/
structure WriteState (C : Type) where
  clients : Slots C
  written : Nat
  calls : List (Fin SERVER_MAX_CLIENTS)

/-- The loop of `write(buffer, size)`; `written` is a `size_t` of `sizeBits` bits. -/
def writeLoop (ops : ClientOps C) (sizeBits : Nat) (buffer : List Nat) (size : Nat) :
    List (Fin SERVER_MAX_CLIENTS) → WriteState C → WriteState C
  | [], st => st
  | i :: rest, st =>
    if ops.connected (st.clients i) then
      writeLoop ops sizeBits buffer size rest
        { clients := Function.update st.clients i (ops.write (st.clients i) buffer size).2,
          written := (st.written + (ops.write (st.clients i) buffer size).1) % 2 ^ sizeBits,
          calls := st.calls ++ [i] }
    else writeLoop ops sizeBits buffer size rest st

/-- The member `write(const uint8_t *buffer, size_t size)`. -/
def write (ops : ClientOps C) (sizeBits : Nat) (s : SFE_CC3000_Server C)
    (buffer : List Nat) (size : Nat) : WriteState C :=
  writeLoop ops sizeBits buffer size slotIndices
    { clients := s.clients_, written := 0, calls := [] }

/-- The member `write(uint8_t value)`: `return write(&value, 1)`. -/
def writeByte (ops : ClientOps C) (sizeBits : Nat) (s : SFE_CC3000_Server C)
    (value : Nat) : WriteState C :=
  write ops sizeBits s [value] 1

end SFE_CC3000_Server

/-! ## A concrete client for evaluating the model -/

/-- A client object given by its descriptor and by what `connected()` and `available()`
report. -/
structure SimClient where
  socket : Int
  conn : Bool
  avail : Int
deriving DecidableEq

/-- Client operations on `SimClient`: a client made from a descriptor reports connected,
and a connected client writes all the bytes it is given. -/
def simOps : ClientOps SimClient where
  dflt := { socket := -1, conn := false, avail := 0 }
  ofSocket := fun _ soc => { socket := soc, conn := true, avail := 0 }
  toBool := fun c => c.conn
  connectIp := fun c _ _ => (1, { c with conn := true })
  connectHost := fun c _ _ => (1, { c with conn := true })
  connected := fun c => c.conn
  available := fun c => c.avail
  read := fun c => (if c.avail > 0 then 0 else -1, { c with avail := c.avail - 1 })
  readBuf := fun c _ => ((0, []), c)
  peek := fun c => (if c.avail > 0 then 0 else -1, c)
  writeByte := fun c _ => (if c.conn then 1 else 0, c)
  write := fun c _ size => (if c.conn then size else 0, c)
  close := fun c => (0, { c with conn := false })
  flush := fun c => c
  stop := fun c => { c with conn := false }

/-- Socket primitives for which everything succeeds with descriptor `0`, except `bind`. -/
def bindFails : SocketApi where
  netapp_timeout_values := fun _ _ _ _ => 0
  socket := 0
  setsockopt := fun _ => 0
  bind := fun _ _ => -1
  listen := fun _ _ => 0
  accept := fun _ _ => -1

/-- Socket primitives for which every step of `begin` succeeds, with descriptor `4`. -/
def beginSucceeds : SocketApi where
  netapp_timeout_values := fun _ _ _ _ => 0
  socket := 4
  setsockopt := fun _ => 0
  bind := fun _ _ => 0
  listen := fun _ _ => 0
  accept := fun _ _ => -2

/-- Socket primitives for which `socket` yields descriptor `5` and every step of `begin`
succeeds except `listen`. -/
def listenFails : SocketApi where
  netapp_timeout_values := fun _ _ _ _ => 0
  socket := 5
  setsockopt := fun _ => 0
  bind := fun _ _ => 0
  listen := fun _ _ => -1
  accept := fun _ _ => -2

/-- Socket primitives for which every step of `begin` succeeds with descriptor `0`, the
first `accept` yields descriptor `1` and every later one reports `SOC_IN_PROGRESS` (-2). -/
def onePending : SocketApi where
  netapp_timeout_values := fun _ _ _ _ => 0
  socket := 0
  setsockopt := fun _ => 0
  bind := fun _ _ => 0
  listen := fun _ _ => 0
  accept := fun k _ => if k = 0 then 1 else -2

/-- A pool whose three slots hold connected clients, with descriptors 1, 2 and 3. -/
def fullPool : SFE_CC3000_Server SimClient where
  cc3000_ := 0
  clients_ := fun i => { socket := (i.val : Int) + 1, conn := true, avail := 0 }
  port_ := 80
  listenSocket_ := 0

/-- A pool in which slots 0 and 2 are connected with data to read and slot 1 is not
connected. -/
def twoReady : SFE_CC3000_Server SimClient where
  cc3000_ := 0
  clients_ := fun i =>
    if i = 1 then { socket := -1, conn := false, avail := 0 }
    else { socket := (i.val : Int) + 1, conn := true, avail := 4 }
  port_ := 80
  listenSocket_ := 0

end SFE_CC3000

/-! ## The accept pass -/

namespace SFE_CC3000
open SFE_CC3000_Server

variable {C : Type}

/-- The invariant of the loop of `acceptNewConnections`, over any list of distinct slots
still to visit: the calls of `accept` made, what each returned, the flag, and what every
slot holds afterwards. -/
theorem acceptLoop_spec (ops : ClientOps C) (api : SocketApi) (cc sd : Nat) :
    ∀ (l : List (Fin SERVER_MAX_CLIENTS)) (st : AcceptState C), l.Nodup →
    ∃ calls : List AcceptCall,
      (acceptLoop ops api cc sd l st).log = st.log ++ calls ∧
      (∀ (k : Nat) (h : k < calls.length),
        (calls.get ⟨k, h⟩).sd = sd ∧
        (calls.get ⟨k, h⟩).result = api.accept (st.log.length + k) sd) ∧
      (acceptLoop ops api cc sd l st).newClientCreated =
        (st.newClientCreated || calls.any (fun e => decide (e.result > -1))) ∧
      (∀ i, (i ∉ l ∨ ops.connected (st.clients i) = true) →
        calls.filter (fun e => decide (e.slot = i)) = [] ∧
        (acceptLoop ops api cc sd l st).clients i = st.clients i) ∧
      (∀ i, i ∈ l → ops.connected (st.clients i) = false →
        ∃ e, calls.filter (fun e => decide (e.slot = i)) = [e] ∧
          (acceptLoop ops api cc sd l st).clients i =
            if e.result > -1 then ops.ofSocket cc e.result else st.clients i) := by
  intro l
  induction l with
  | nil =>
    intro st _
    exact ⟨[], by simp [acceptLoop], by simp, by simp [acceptLoop],
      by simp [acceptLoop], by simp⟩
  | cons i rest ih =>
    intro st hnd
    obtain ⟨hi, hrest⟩ := List.nodup_cons.mp hnd
    by_cases hc : ops.connected (st.clients i) = true
    · obtain ⟨calls, h1, h2, h3, h4, h5⟩ := ih st hrest
      have hF : acceptLoop ops api cc sd (i :: rest) st = acceptLoop ops api cc sd rest st := by
        simp [acceptLoop, hc]
      rw [hF]
      refine ⟨calls, h1, h2, h3, ?_, ?_⟩
      · intro j hj
        apply h4
        by_cases hji : j = i
        · subst hji; exact Or.inr hc
        · rcases hj with hj | hj
          · exact Or.inl (fun hm => hj (List.mem_cons_of_mem _ hm))
          · exact Or.inr hj
      · intro j hj hnc
        have hji : j ≠ i := by
          rintro rfl
          rw [hc] at hnc
          exact Bool.noConfusion hnc
        rcases List.mem_cons.mp hj with hj | hj
        · exact absurd hj hji
        · exact h5 j hj hnc
    · have hc' : ops.connected (st.clients i) = false := by simpa using hc
      obtain ⟨st1, hF, hlog, hflag, hci, hcj⟩ : ∃ st1 : AcceptState C,
          acceptLoop ops api cc sd (i :: rest) st = acceptLoop ops api cc sd rest st1 ∧
          st1.log = st.log ++ [{ slot := i, sd := sd, result := api.accept st.log.length sd }] ∧
          st1.newClientCreated =
            (st.newClientCreated || decide (api.accept st.log.length sd > -1)) ∧
          st1.clients i = (if api.accept st.log.length sd > -1 then
            ops.ofSocket cc (api.accept st.log.length sd) else st.clients i) ∧
          ∀ j, j ≠ i → st1.clients j = st.clients j := by
        by_cases hr : api.accept st.log.length sd > -1
        · exact ⟨_, by simp only [acceptLoop, hc', hr, if_true, Bool.false_eq_true, if_false]; rfl,
            rfl, by simp [hr], by simp [hr],
            fun j hj => Function.update_noteq hj _ _⟩
        · exact ⟨{ st with log := st.log ++
                [{ slot := i, sd := sd, result := api.accept st.log.length sd }] },
            by simp only [acceptLoop, hc', hr, if_false, Bool.false_eq_true],
            rfl, by simp [hr], by simp [hr], fun j _ => rfl⟩
      obtain ⟨calls, h1, h2, h3, h4, h5⟩ := ih st1 hrest
      rw [hF]
      refine ⟨{ slot := i, sd := sd, result := api.accept st.log.length sd } :: calls,
        ?_, ?_, ?_, ?_, ?_⟩
      · rw [h1, hlog]; simp
      · intro k h
        cases k with
        | zero => exact ⟨rfl, rfl⟩
        | succ k =>
          have hk : k < calls.length := by simpa using h
          have := h2 k hk
          rw [hlog] at this
          simp only [List.length_append, List.length_singleton] at this
          rw [show st.log.length + (k + 1) = st.log.length + 1 + k by omega]
          exact this
      · rw [h3, hflag]; simp [Bool.or_assoc]
      · intro j hj
        have hji : j ≠ i := by
          rintro rfl
          rcases hj with hj | hj
          · exact hj (List.mem_cons_self _ _)
          · rw [hc'] at hj; exact Bool.noConfusion hj
        have h4j := h4 j (by
          rcases hj with hj | hj
          · exact Or.inl (fun hm => hj (List.mem_cons_of_mem _ hm))
          · exact Or.inr (by rw [hcj j hji]; exact hj))
        refine ⟨?_, by rw [h4j.2, hcj j hji]⟩
        rw [List.filter_cons_of_neg (by simpa using fun h => hji h.symm)]
        exact h4j.1
      · intro j hj hnc
        by_cases hji : j = i
        · subst hji
          have h4j := h4 j (Or.inl hi)
          refine ⟨{ slot := j, sd := sd, result := api.accept st.log.length sd }, ?_, ?_⟩
          · rw [List.filter_cons_of_pos (by simp), h4j.1]
          · rw [h4j.2, hci]
        · have hj' : j ∈ rest := by
            rcases List.mem_cons.mp hj with hj | hj
            · exact absurd hj hji
            · exact hj
          obtain ⟨e, he1, he2⟩ := h5 j hj' (by rw [hcj j hji]; exact hnc)
          refine ⟨e, ?_, by rw [he2, hcj j hji]⟩
          rw [List.filter_cons_of_neg (by simpa using fun h => hji h.symm)]
          exact he1

/-- The loop invariant at the whole index range: one call of `acceptNewConnections`
described by the `accept` calls it adds to the log. -/
theorem acceptNewConnections_spec (ops : ClientOps C) (api : SocketApi)
    (s : SFE_CC3000_Server C) (log : List AcceptCall) :
    ∃ calls : List AcceptCall,
      (acceptNewConnections ops api s log).2.2 = log ++ calls ∧
      (∀ (k : Nat) (h : k < calls.length),
        (calls.get ⟨k, h⟩).sd = s.listenSocket_ ∧
        (calls.get ⟨k, h⟩).result = api.accept (log.length + k) s.listenSocket_) ∧
      (acceptNewConnections ops api s log).1 = calls.any (fun e => decide (e.result > -1)) ∧
      (∀ i, ops.connected (s.clients_ i) = true →
        calls.filter (fun e => decide (e.slot = i)) = [] ∧
        (acceptNewConnections ops api s log).2.1.clients_ i = s.clients_ i) ∧
      (∀ i, ops.connected (s.clients_ i) = false →
        ∃ e, calls.filter (fun e => decide (e.slot = i)) = [e] ∧
          (acceptNewConnections ops api s log).2.1.clients_ i =
            if e.result > -1 then ops.ofSocket s.cc3000_ e.result else s.clients_ i) ∧
      (∀ e ∈ calls, e.sd = s.listenSocket_ ∧
        ∃ k, log.length ≤ k ∧ e.result = api.accept k s.listenSocket_) := by
  obtain ⟨calls, h1, h2, h3, h4, h5⟩ :=
    acceptLoop_spec ops api s.cc3000_ s.listenSocket_ slotIndices
      { clients := s.clients_, log := log, newClientCreated := false }
      (List.nodup_finRange _)
  refine ⟨calls, h1, h2, ?_, fun i hi => h4 i (Or.inr hi),
    fun i hi => h5 i (List.mem_finRange i) hi, ?_⟩
  · simpa using h3
  · intro e he
    obtain ⟨k, hk⟩ := List.mem_iff_get.mp he
    exact ⟨by rw [← hk]; exact (h2 k.val k.isLt).1,
      log.length + k.val, Nat.le_add_right _ _, by rw [← hk]; exact (h2 k.val k.isLt).2⟩

/-- When every `accept` from now on returns a negative value, `acceptNewConnections`
returns false and changes no slot. -/
theorem acceptNewConnections_of_neg (ops : ClientOps C) (api : SocketApi)
    (s : SFE_CC3000_Server C) (log : List AcceptCall)
    (hneg : ∀ k, log.length ≤ k → api.accept k s.listenSocket_ < 0) :
    (acceptNewConnections ops api s log).1 = false ∧
    ∀ i, (acceptNewConnections ops api s log).2.1.clients_ i = s.clients_ i := by
  obtain ⟨calls, _, _, h3, h4, h5, h6⟩ := acceptNewConnections_spec ops api s log
  have hall : ∀ e ∈ calls, ¬ e.result > -1 := by
    intro e he
    obtain ⟨_, k, hk, hres⟩ := h6 e he
    have := hneg k hk
    omega
  refine ⟨?_, fun i => ?_⟩
  · rw [h3, Bool.eq_false_iff]
    intro h
    obtain ⟨e, he, hr⟩ := List.any_eq_true.mp h
    exact hall e he (by simpa using hr)
  · cases hc : ops.connected (s.clients_ i) with
    | true => exact (h4 i hc).2
    | false =>
      obtain ⟨e, he1, he2⟩ := h5 i hc
      have he : e ∈ calls := by
        have : e ∈ calls.filter (fun e => decide (e.slot = i)) := by rw [he1]; simp
        exact (List.mem_filter.mp this).1
      rw [he2, if_neg (hall e he)]

/-- Every `accept` result is at most `-1` or at least `0`. -/
theorem not_gt_neg_one_iff (x : Int) : ¬ x > -1 ↔ x < 0 := by omega

/-- A member of `calls` made for slot `i` is in the calls filtered for slot `i`. -/
theorem mem_filter_slot {calls : List AcceptCall} {e : AcceptCall} (he : e ∈ calls) :
    e ∈ calls.filter (fun e' => decide (e'.slot = e.slot)) :=
  List.mem_filter.mpr ⟨he, by simp⟩

/-- Claim C2: one call of `acceptNewConnections` adds to the log exactly one `accept` call
for each slot that reports not connected (made on `listenSocket_`, returning what the
primitive returns for that call) and none for a slot that reports connected; a connected
slot keeps its client; a not-connected slot receives the client built from the descriptor
when its `accept` returned a value above `-1` and keeps its client when the value is
negative; `cc3000_`, `port_` and `listenSocket_` are unchanged. -/
theorem acceptNewConnections_frame (ops : ClientOps C) (api : SocketApi)
    (s : SFE_CC3000_Server C) (log : List AcceptCall) :
    ∃ calls : List AcceptCall,
      (acceptNewConnections ops api s log).2.2 = log ++ calls ∧
      (∀ (k : Nat) (h : k < calls.length),
        (calls.get ⟨k, h⟩).sd = s.listenSocket_ ∧
        (calls.get ⟨k, h⟩).result = api.accept (log.length + k) s.listenSocket_) ∧
      (∀ i, ops.connected (s.clients_ i) = true →
        calls.filter (fun e => decide (e.slot = i)) = [] ∧
        (acceptNewConnections ops api s log).2.1.clients_ i = s.clients_ i) ∧
      (∀ i, ops.connected (s.clients_ i) = false →
        ∃ e, calls.filter (fun e => decide (e.slot = i)) = [e] ∧
          (e.result > -1 → (acceptNewConnections ops api s log).2.1.clients_ i =
            ops.ofSocket s.cc3000_ e.result) ∧
          (e.result < 0 → (acceptNewConnections ops api s log).2.1.clients_ i =
            s.clients_ i)) ∧
      (acceptNewConnections ops api s log).2.1.cc3000_ = s.cc3000_ ∧
      (acceptNewConnections ops api s log).2.1.port_ = s.port_ ∧
      (acceptNewConnections ops api s log).2.1.listenSocket_ = s.listenSocket_ := by
  obtain ⟨calls, h1, h2, _, h4, h5, _⟩ := acceptNewConnections_spec ops api s log
  refine ⟨calls, h1, h2, h4, ?_, rfl, rfl, rfl⟩
  intro i hi
  obtain ⟨e, he1, he2⟩ := h5 i hi
  refine ⟨e, he1, fun hr => by rw [he2, if_pos hr], fun hr => ?_⟩
  rw [he2, if_neg ((not_gt_neg_one_iff _).mpr hr)]

/-- Claim C3: `acceptNewConnections` returns true exactly when one of the `accept` calls
of this call, made for a slot that reported not connected, returned a value above `-1`,
and that slot then holds the client built from the returned descriptor; it returns false
when every slot reports connected and when every `accept` made on the listening socket
from now on returns a negative value. -/
theorem acceptNewConnections_result (ops : ClientOps C) (api : SocketApi)
    (s : SFE_CC3000_Server C) (log : List AcceptCall) :
    ((acceptNewConnections ops api s log).1 = true ↔
      ∃ e ∈ (acceptNewConnections ops api s log).2.2.drop log.length,
        e.result > -1 ∧ ops.connected (s.clients_ e.slot) = false ∧
        (acceptNewConnections ops api s log).2.1.clients_ e.slot =
          ops.ofSocket s.cc3000_ e.result) ∧
    ((∀ i, ops.connected (s.clients_ i) = true) →
      (acceptNewConnections ops api s log).1 = false) ∧
    ((∀ k, log.length ≤ k → api.accept k s.listenSocket_ < 0) →
      (acceptNewConnections ops api s log).1 = false) := by
  obtain ⟨calls, h1, _, h3, h4, h5, _⟩ := acceptNewConnections_spec ops api s log
  have hdrop : (acceptNewConnections ops api s log).2.2.drop log.length = calls := by
    rw [h1]; simp
  have hconn : ∀ e ∈ calls, ops.connected (s.clients_ e.slot) = false := by
    intro e he
    by_contra hcon
    have hcon' : ops.connected (s.clients_ e.slot) = true := by simpa using hcon
    have hm := mem_filter_slot he
    rw [(h4 e.slot hcon').1] at hm
    exact List.not_mem_nil _ hm
  refine ⟨?_, ?_, fun hneg => (acceptNewConnections_of_neg ops api s log hneg).1⟩
  · rw [hdrop, h3]
    constructor
    · intro h
      obtain ⟨e, he, hr⟩ := List.any_eq_true.mp h
      have hr' : e.result > -1 := by simpa using hr
      obtain ⟨e', he1, he2⟩ := h5 e.slot (hconn e he)
      have hm := mem_filter_slot he
      rw [he1] at hm
      have hee : e = e' := by simpa using hm
      subst hee
      exact ⟨e, he, hr', hconn e he, by rw [he2, if_pos hr']⟩
    · rintro ⟨e, he, hr, _, _⟩
      exact List.any_eq_true.mpr ⟨e, he, by simpa using hr⟩
  · intro hall
    rw [h3, Bool.eq_false_iff]
    intro h
    obtain ⟨e, he, _⟩ := List.any_eq_true.mp h
    have := hconn e he
    rw [hall e.slot] at this
    exact Bool.noConfusion this

/-! ## The readiness scan -/

/-- The scan over an ascending list of slots: either it returns `-1` and no slot of the
list is ready, or it returns a ready slot of the list before which no slot is ready. -/
theorem scanReady_spec (ops : ClientOps C) (clients : Slots C) :
    ∀ l : List (Fin SERVER_MAX_CLIENTS), l.Pairwise (· < ·) →
      (scanReady ops clients l = -1 ∧
        ∀ i ∈ l, ¬ (ops.connected (clients i) = true ∧ ops.available (clients i) > 0)) ∨
      (∃ i ∈ l, scanReady ops clients l = (i.val : Int) ∧
        ops.connected (clients i) = true ∧ ops.available (clients i) > 0 ∧
        ∀ j ∈ l, j < i →
          ¬ (ops.connected (clients j) = true ∧ ops.available (clients j) > 0)) := by
  intro l
  induction l with
  | nil => intro _; exact Or.inl ⟨rfl, by simp⟩
  | cons i rest ih =>
    intro hl
    obtain ⟨hlt, hrest⟩ := List.pairwise_cons.mp hl
    by_cases hr : ops.connected (clients i) = true ∧ ops.available (clients i) > 0
    · refine Or.inr ⟨i, List.mem_cons_self _ _, ?_, hr.1, hr.2, ?_⟩
      · simp [scanReady, hr.1, hr.2]
      · intro j hj hji
        rcases List.mem_cons.mp hj with hj | hj
        · exact absurd hj (ne_of_lt hji)
        · exact absurd hji (not_lt_of_gt (hlt j hj))
    · have hstep : scanReady ops clients (i :: rest) = scanReady ops clients rest := by
        have : (ops.connected (clients i) && decide (ops.available (clients i) > 0)) = false := by
          rw [Bool.eq_false_iff]
          intro h
          rw [Bool.and_eq_true, decide_eq_true_eq] at h
          exact hr h
        simp only [scanReady, this, Bool.false_eq_true, if_false]
      rw [hstep]
      rcases ih hrest with ⟨h1, h2⟩ | ⟨k, hk, h1, h2, h3, h4⟩
      · refine Or.inl ⟨h1, fun j hj => ?_⟩
        rcases List.mem_cons.mp hj with hj | hj
        · rw [hj]; exact hr
        · exact h2 j hj
      · refine Or.inr ⟨k, List.mem_cons_of_mem _ hk, h1, h2, h3, fun j hj hjk => ?_⟩
        rcases List.mem_cons.mp hj with hj | hj
        · rw [hj]; exact hr
        · exact h4 j hj hjk

/-- The scan over all slots returns `-1` exactly when no slot is ready, and returns `i`
exactly when `i` is the lowest ready slot. -/
theorem scanReady_slotIndices (ops : ClientOps C) (clients : Slots C) :
    (scanReady ops clients slotIndices = -1 ↔
      ∀ i, ¬ (ops.connected (clients i) = true ∧ ops.available (clients i) > 0)) ∧
    (∀ i : Fin SERVER_MAX_CLIENTS, scanReady ops clients slotIndices = (i.val : Int) ↔
      (ops.connected (clients i) = true ∧ ops.available (clients i) > 0) ∧
      ∀ j, j < i → ¬ (ops.connected (clients j) = true ∧ ops.available (clients j) > 0)) := by
  have hmem : ∀ j : Fin SERVER_MAX_CLIENTS, j ∈ slotIndices := List.mem_finRange
  rcases scanReady_spec ops clients slotIndices (List.pairwise_lt_finRange _) with
    ⟨h1, h2⟩ | ⟨k, _, h1, h2, h3, h4⟩
  · refine ⟨⟨fun _ i => h2 i (hmem i), fun _ => h1⟩, fun i => ⟨fun h => ?_, fun h => ?_⟩⟩
    · rw [h1] at h; omega
    · exact absurd h.1 (h2 i (hmem i))
  · refine ⟨⟨fun h => ?_, fun h => absurd ⟨h2, h3⟩ (h k)⟩, fun i => ⟨fun h => ?_, fun h => ?_⟩⟩
    · rw [h1] at h; omega
    · rw [h1] at h
      have hik : k = i := Fin.ext (by exact_mod_cast h)
      subst hik
      exact ⟨⟨h2, h3⟩, fun j hj => h4 j (hmem j) hj⟩
    · rw [h1]
      rcases lt_trichotomy i k with hlt | heq | hgt
      · exact absurd h.1 (h4 i (hmem i) hlt)
      · rw [heq]
      · exact absurd ⟨h2, h3⟩ (h.2 k hgt)

/-- Claim C1: `availableIndex` scans the pool its accept pass leaves; it returns `-1`
exactly when no slot of that pool is connected with `available() > 0`, and returns `i`
exactly when `i` is the lowest such slot; when slots 0 and 2 are connected with data and
slot 1 is not connected it returns 0, not 2. -/
theorem availableIndex_lowest (ops : ClientOps C) (api : SocketApi)
    (s : SFE_CC3000_Server C) (log : List AcceptCall) (newClient : Option Bool) :
    (availableIndex ops api s log newClient).server = (acceptNewConnections ops api s log).2.1 ∧
    ((availableIndex ops api s log newClient).index = -1 ↔
      ∀ i, ¬ (ops.connected ((availableIndex ops api s log newClient).server.clients_ i) = true ∧
        ops.available ((availableIndex ops api s log newClient).server.clients_ i) > 0)) ∧
    (∀ i : Fin SERVER_MAX_CLIENTS,
      (availableIndex ops api s log newClient).index = (i.val : Int) ↔
        (ops.connected ((availableIndex ops api s log newClient).server.clients_ i) = true ∧
          ops.available ((availableIndex ops api s log newClient).server.clients_ i) > 0) ∧
        ∀ j, j < i →
          ¬ (ops.connected ((availableIndex ops api s log newClient).server.clients_ j) = true ∧
            ops.available ((availableIndex ops api s log newClient).server.clients_ j) > 0)) ∧
    (ops.connected (s.clients_ 0) = true ∧ ops.available (s.clients_ 0) > 0 →
      ops.connected (s.clients_ 2) = true ∧ ops.available (s.clients_ 2) > 0 →
      ops.connected (s.clients_ 1) = false →
      (availableIndex ops api s log newClient).index = 0 ∧
      (availableIndex ops api s log newClient).index ≠ 2) := by
  have hscan := scanReady_slotIndices ops (acceptNewConnections ops api s log).2.1.clients_
  refine ⟨rfl, hscan.1, hscan.2, fun h0 _ _ => ?_⟩
  obtain ⟨calls, _, _, _, h4, _, _⟩ := acceptNewConnections_spec ops api s log
  have hkeep := (h4 0 h0.1).2
  have hidx : (availableIndex ops api s log newClient).index = 0 := by
    have := (hscan.2 0).mpr ⟨by rw [hkeep]; exact h0, fun j hj => absurd hj (by
      rw [Fin.lt_def]; exact Nat.not_lt_zero _)⟩
    simpa using this
  exact ⟨hidx, by rw [hidx]; decide⟩

/-- The offset of slot `i` designates slot `i`. -/
theorem slotAt_val (i : Fin SERVER_MAX_CLIENTS) : slotAt (i.val : Int) = some i := by
  have h : 0 ≤ (i.val : Int) ∧ (i.val : Int) < (SERVER_MAX_CLIENTS : Int) :=
    ⟨Int.ofNat_nonneg _, by exact_mod_cast i.isLt⟩
  unfold slotAt
  rw [dif_pos h]
  simp

/-- Claim C10: the index `availableIndex` returns is `-1` or lies in
`0..SERVER_MAX_CLIENTS-1`; the handle `available()` returns is `getClientRef` of that
index, null when the index is `-1` and otherwise bound to the slot of that index, an
element of `clients_`, which reports connected with `available() > 0` in the pool the call
leaves. -/
theorem available_in_bounds (ops : ClientOps C) (api : SocketApi)
    (s : SFE_CC3000_Server C) (log : List AcceptCall) (newClient : Option Bool) :
    ((availableIndex ops api s log newClient).index = -1 ∨
      (0 ≤ (availableIndex ops api s log newClient).index ∧
        (availableIndex ops api s log newClient).index < (SERVER_MAX_CLIENTS : Int))) ∧
    (available ops api s log).1 = getClientRef (availableIndex ops api s log none).index ∧
    ((availableIndex ops api s log none).index = -1 →
      (available ops api s log).1.client_ = none) ∧
    ((availableIndex ops api s log none).index ≠ -1 →
      ∃ i : Fin SERVER_MAX_CLIENTS,
        (availableIndex ops api s log none).index = (i.val : Int) ∧
        (available ops api s log).1.client_ = some (i.val : Int) ∧
        slotAt (i.val : Int) = some i ∧
        ops.connected ((available ops api s log).2.1.clients_ i) = true ∧
        ops.available ((available ops api s log).2.1.clients_ i) > 0) := by
  have hscan := scanReady_spec ops (acceptNewConnections ops api s log).2.1.clients_
    slotIndices (List.pairwise_lt_finRange _)
  have hidx : ∀ nc, (availableIndex ops api s log nc).index =
      scanReady ops (acceptNewConnections ops api s log).2.1.clients_ slotIndices :=
    fun _ => rfl
  refine ⟨?_, rfl, fun h => ?_, fun h => ?_⟩
  · rw [hidx]
    rcases hscan with ⟨h1, _⟩ | ⟨k, _, h1, _⟩
    · exact Or.inl h1
    · refine Or.inr ?_
      rw [h1]
      exact ⟨Int.ofNat_nonneg _, by exact_mod_cast k.isLt⟩
  · show (getClientRef (availableIndex ops api s log none).index).client_ = none
    rw [h]; rfl
  · rw [hidx] at h
    rcases hscan with ⟨h1, _⟩ | ⟨k, _, h1, h2, h3, _⟩
    · exact absurd h1 h
    · refine ⟨k, by rw [hidx, h1], ?_, slotAt_val k, h2, h3⟩
      show (getClientRef (availableIndex ops api s log none).index).client_ = some (k.val : Int)
      rw [hidx, h1]
      have : (k.val : Int) ≠ -1 := by omega
      simp [getClientRef, this]

/-- Claim C9: in the pool of three slots, when no slot reports connected and every
`accept` returns a negative value, `availableIndex` returns `-1`, `getClientRef(-1)` is
the null handle, and the handle `available()` returns is null and converts to false. -/
theorem available_none_pending (ops : ClientOps C) (api : SocketApi)
    (s : SFE_CC3000_Server C) (log : List AcceptCall) (newClient : Option Bool)
    (hnc : ∀ i, ops.connected (s.clients_ i) = false)
    (hneg : ∀ k, log.length ≤ k → api.accept k s.listenSocket_ < 0) :
    (availableIndex ops api s log newClient).index = -1 ∧
    (getClientRef (-1)).client_ = none ∧
    (available ops api s log).1.client_ = none ∧
    SFE_CC3000_ClientRef.toBool ops (available ops api s log).2.1.clients_
      (available ops api s log).1 = some false := by
  have hkeep := (acceptNewConnections_of_neg ops api s log hneg).2
  have hidx : ∀ nc, (availableIndex ops api s log nc).index = -1 := by
    intro nc
    refine (scanReady_slotIndices ops (acceptNewConnections ops api s log).2.1.clients_).1.mpr ?_
    intro i hi
    rw [hkeep i, hnc i] at hi
    exact Bool.noConfusion hi.1
  have hnull : (available ops api s log).1.client_ = none := by
    show (getClientRef (availableIndex ops api s log none).index).client_ = none
    rw [hidx]; rfl
  refine ⟨hidx newClient, rfl, hnull, ?_⟩
  simp [SFE_CC3000_ClientRef.toBool, hnull]

/-- When slot 0 reports not connected and the next `accept` returns a descriptor above
`-1`, `acceptNewConnections` returns true, puts the client built from that descriptor in
slot 0 and makes the log longer. -/
theorem acceptNewConnections_first (ops : ClientOps C) (api : SocketApi)
    (s : SFE_CC3000_Server C) (log : List AcceptCall) (d : Int)
    (h0 : ops.connected (s.clients_ 0) = false)
    (hd : api.accept log.length s.listenSocket_ = d) (hpos : d > -1) :
    (acceptNewConnections ops api s log).1 = true ∧
    (acceptNewConnections ops api s log).2.1.clients_ 0 = ops.ofSocket s.cc3000_ d ∧
    log.length < (acceptNewConnections ops api s log).2.2.length := by
  have hsl : slotIndices = 0 :: [1, 2] := by decide
  obtain ⟨calls, h1, _, h3, h4, _⟩ := acceptLoop_spec ops api s.cc3000_ s.listenSocket_ [1, 2]
    { clients := Function.update s.clients_ 0 (ops.ofSocket s.cc3000_ d),
      log := log ++ [{ slot := 0, sd := s.listenSocket_, result := d }],
      newClientCreated := true } (by decide)
  have hF : acceptLoop ops api s.cc3000_ s.listenSocket_ slotIndices
      { clients := s.clients_, log := log, newClientCreated := false } =
      acceptLoop ops api s.cc3000_ s.listenSocket_ [1, 2]
        { clients := Function.update s.clients_ 0 (ops.ofSocket s.cc3000_ d),
          log := log ++ [{ slot := 0, sd := s.listenSocket_, result := d }],
          newClientCreated := true } := by
    rw [hsl]
    simp only [acceptLoop, h0, hd, hpos, if_true, Bool.false_eq_true, if_false]
  refine ⟨?_, ?_, ?_⟩
  · show (acceptLoop ops api s.cc3000_ s.listenSocket_ slotIndices _).newClientCreated = true
    rw [hF, h3]; rfl
  · show (acceptLoop ops api s.cc3000_ s.listenSocket_ slotIndices _).clients 0 = _
    rw [hF, (h4 0 (Or.inl (by decide))).2]
    simp
  · show log.length < (acceptLoop ops api s.cc3000_ s.listenSocket_ slotIndices _).log.length
    rw [hF, h1]
    simp only [List.length_append, List.length_singleton]
    omega

/-- Claim C8: when slot 0 reports not connected, the next `accept` returns a descriptor
above `-1` and every later `accept` returns a negative value, then after
`availableIndex(&newClient)` the flag is true and slot 0 holds the client built from the
descriptor, which reports connected when such a client does; a second call sets the flag
to false and leaves slot 0 as it is, still connected.  For every call the flag written,
when `newClient` is not null, is the result of `acceptNewConnections`. -/
theorem availableIndex_newClient (ops : ClientOps C) (api : SocketApi)
    (s : SFE_CC3000_Server C) (log : List AcceptCall) (b b' : Bool) (d : Int)
    (h0 : ops.connected (s.clients_ 0) = false)
    (hd : api.accept log.length s.listenSocket_ = d) (hpos : d > -1)
    (hlater : ∀ k, log.length < k → api.accept k s.listenSocket_ < 0)
    (hconn : ops.connected (ops.ofSocket s.cc3000_ d) = true) :
    (availableIndex ops api s log (some b)).newClient = some true ∧
    (availableIndex ops api s log (some b)).server.clients_ 0 = ops.ofSocket s.cc3000_ d ∧
    ops.connected ((availableIndex ops api s log (some b)).server.clients_ 0) = true ∧
    (availableIndex ops api (availableIndex ops api s log (some b)).server
      (availableIndex ops api s log (some b)).log (some b')).newClient = some false ∧
    ops.connected ((availableIndex ops api (availableIndex ops api s log (some b)).server
      (availableIndex ops api s log (some b)).log (some b')).server.clients_ 0) = true ∧
    (∀ (t : SFE_CC3000_Server C) (l : List AcceptCall) (x : Bool),
      (availableIndex ops api t l (some x)).newClient =
        some (acceptNewConnections ops api t l).1 ∧
      (availableIndex ops api t l none).newClient = none) := by
  obtain ⟨hf1, hf2, hf3⟩ := acceptNewConnections_first ops api s log d h0 hd hpos
  have hsecond := acceptNewConnections_of_neg ops api
    (acceptNewConnections ops api s log).2.1 (acceptNewConnections ops api s log).2.2
    (fun k hk => hlater k (lt_of_lt_of_le hf3 hk))
  refine ⟨?_, hf2, ?_, ?_, ?_, fun _ _ _ => ⟨rfl, rfl⟩⟩
  · show some (acceptNewConnections ops api s log).1 = some true
    rw [hf1]
  · show ops.connected ((acceptNewConnections ops api s log).2.1.clients_ 0) = true
    rw [hf2]; exact hconn
  · show some (acceptNewConnections ops api (acceptNewConnections ops api s log).2.1
      (acceptNewConnections ops api s log).2.2).1 = some false
    rw [hsecond.1]
  · show ops.connected ((acceptNewConnections ops api (acceptNewConnections ops api s log).2.1
      (acceptNewConnections ops api s log).2.2).2.1.clients_ 0) = true
    rw [hsecond.2 0, hf2]; exact hconn

/-! ## Null handles -/

/-- Claim C4: on a handle whose `client_` is null the boolean conversion is false; both
`connect` overloads, `connected`, `available`, `read`, `read(buf, size)`, `peek`, both
`write` overloads and `close` return 0 (false), and `flush` and `stop` return; none of
them faults and all leave every client as it was, whatever the clients are. -/
theorem null_handle_safe (ops : ClientOps C) (mem : Slots C) (r : SFE_CC3000_ClientRef)
    (hnull : r.client_ = none) (ip port b size : Nat) (host buf : List Nat) :
    r.toBool ops mem = some false ∧
    r.connectIp ops mem ip port = some (0, mem) ∧
    r.connectHost ops mem host port = some (0, mem) ∧
    r.connected ops mem = some (0, mem) ∧
    r.available ops mem = some (0, mem) ∧
    r.read ops mem = some (0, mem) ∧
    r.readBuf ops mem size = some ((0, []), mem) ∧
    r.peek ops mem = some (0, mem) ∧
    r.writeByte ops mem b = some (0, mem) ∧
    r.write ops mem buf size = some (0, mem) ∧
    r.close ops mem = some (0, mem) ∧
    r.flush ops mem = some mem ∧
    r.stop ops mem = some mem := by
  simp [SFE_CC3000_ClientRef.toBool, SFE_CC3000_ClientRef.connectIp,
    SFE_CC3000_ClientRef.connectHost, SFE_CC3000_ClientRef.connected,
    SFE_CC3000_ClientRef.available, SFE_CC3000_ClientRef.read,
    SFE_CC3000_ClientRef.readBuf, SFE_CC3000_ClientRef.peek,
    SFE_CC3000_ClientRef.writeByte, SFE_CC3000_ClientRef.write,
    SFE_CC3000_ClientRef.close, SFE_CC3000_ClientRef.flush, SFE_CC3000_ClientRef.stop,
    handleNull, ifBound, hnull]

/-! ## Initialization -/

/-- The range of `int16_t`. -/
theorem toInt16_range (x : Int) : -32768 ≤ toInt16 x ∧ toInt16 x < 32768 := by
  unfold toInt16; omega

/-- A non-negative `int16_t` converts to `uint32_t` unchanged and differs from the value
of `(uint32_t)-1`. -/
theorem toUInt32_toInt16 (x : Int) (h : 0 ≤ toInt16 x) :
    toUInt32 (toInt16 x) = (toInt16 x).toNat ∧ toUInt32 (toInt16 x) ≠ INVALID_SOCKET := by
  have hr := toInt16_range x
  have h1 : toUInt32 (toInt16 x) = (toInt16 x).toNat := by
    unfold toUInt32
    rw [Int.emod_eq_of_lt h (by omega)]
  refine ⟨h1, ?_⟩
  rw [h1]
  have : INVALID_SOCKET = 4294967295 := by decide
  omega

/-- Claim C6, as stated, fails: on a server whose earlier `begin` succeeded with
descriptor 4, a `begin` that fails at `listen` leaves `listenSocket_` at 4, not at the
constructor's sentinel 4294967295. -/
theorem begin_failure_keeps_descriptor :
    (begin beginSucceeds (new simOps 0 80)).listenSocket_ = 4 ∧
    listenFails.listen (toInt16 listenFails.socket) 0 < 0 ∧
    (begin listenFails (begin beginSucceeds (new simOps 0 80))).listenSocket_ = 4 ∧
    (begin listenFails (begin beginSucceeds (new simOps 0 80))).listenSocket_ ≠ 4294967295 := by
  decide

/-- Claim C6, amended: when a step of `begin` fails (the timeout configuration returns
non-zero, or the socket descriptor, `setsockopt`, `bind` or `listen` is negative) the
server is left as it was, so `listenSocket_` keeps the value it had before the call: a
server whose `listenSocket_` is the sentinel 4294967295 of `listenSocket_ = -1`, as the
constructor leaves it, keeps the sentinel; `listenSocket_` receives the socket descriptor,
which is not the sentinel, exactly when every step succeeds. -/
theorem begin_listening (ops : ClientOps C) (api : SocketApi) (s : SFE_CC3000_Server C)
    (cc3000 port : Nat) :
    ((api.netapp_timeout_values 14400 3600 30 0 ≠ 0 ∨ toInt16 api.socket < 0 ∨
        api.setsockopt (toInt16 api.socket) < 0 ∨ api.bind (toInt16 api.socket) s.port_ < 0 ∨
        api.listen (toInt16 api.socket) 0 < 0) →
      begin api s = s ∧ (begin api s).listenSocket_ = s.listenSocket_ ∧
      (s.listenSocket_ = 4294967295 → (begin api s).listenSocket_ = 4294967295)) ∧
    (new ops cc3000 port).listenSocket_ = 4294967295 ∧
    ((api.netapp_timeout_values 14400 3600 30 0 ≠ 0 ∨ toInt16 api.socket < 0 ∨
        api.setsockopt (toInt16 api.socket) < 0 ∨ api.bind (toInt16 api.socket) port < 0 ∨
        api.listen (toInt16 api.socket) 0 < 0) →
      (begin api (new ops cc3000 port)).listenSocket_ = 4294967295) ∧
    ((api.netapp_timeout_values 14400 3600 30 0 = 0 ∧ 0 ≤ toInt16 api.socket ∧
        0 ≤ api.setsockopt (toInt16 api.socket) ∧ 0 ≤ api.bind (toInt16 api.socket) s.port_ ∧
        0 ≤ api.listen (toInt16 api.socket) 0) →
      ((begin api s).listenSocket_ : Int) = toInt16 api.socket ∧
      (begin api s).listenSocket_ ≠ 4294967295 ∧
      (begin api s).clients_ = s.clients_ ∧ (begin api s).port_ = s.port_ ∧
      (begin api s).cc3000_ = s.cc3000_) ∧
    ((begin api (new ops cc3000 port)).listenSocket_ ≠ 4294967295 ↔
      (api.netapp_timeout_values 14400 3600 30 0 = 0 ∧ 0 ≤ toInt16 api.socket ∧
        0 ≤ api.setsockopt (toInt16 api.socket) ∧ 0 ≤ api.bind (toInt16 api.socket) port ∧
        0 ≤ api.listen (toInt16 api.socket) 0)) := by
  have hinv : INVALID_SOCKET = 4294967295 := by decide
  have hfail : ∀ t : SFE_CC3000_Server C,
      (api.netapp_timeout_values 14400 3600 30 0 ≠ 0 ∨ toInt16 api.socket < 0 ∨
        api.setsockopt (toInt16 api.socket) < 0 ∨ api.bind (toInt16 api.socket) t.port_ < 0 ∨
        api.listen (toInt16 api.socket) 0 < 0) → begin api t = t := by
    intro t h
    unfold begin
    by_cases h1 : api.netapp_timeout_values 14400 3600 30 0 ≠ 0
    · rw [if_pos h1]
    · rw [if_neg h1]
      by_cases h2 : toInt16 api.socket < 0
      · simp only [h2, if_true]
      · by_cases h3 : api.setsockopt (toInt16 api.socket) < 0
        · simp only [h2, h3, if_true, if_false]
        · by_cases h4 : api.bind (toInt16 api.socket) t.port_ < 0
          · simp only [h2, h3, h4, if_true, if_false]
          · by_cases h5 : api.listen (toInt16 api.socket) 0 < 0
            · simp only [h2, h3, h4, h5, if_true, if_false]
            · rcases h with h | h | h | h | h
              · exact absurd h h1
              · exact absurd h h2
              · exact absurd h h3
              · exact absurd h h4
              · exact absurd h h5
  have hok : ∀ t : SFE_CC3000_Server C,
      (api.netapp_timeout_values 14400 3600 30 0 = 0 ∧ 0 ≤ toInt16 api.socket ∧
        0 ≤ api.setsockopt (toInt16 api.socket) ∧ 0 ≤ api.bind (toInt16 api.socket) t.port_ ∧
        0 ≤ api.listen (toInt16 api.socket) 0) →
      begin api t = { t with listenSocket_ := toUInt32 (toInt16 api.socket) } := by
    rintro t ⟨h1, h2, h3, h4, h5⟩
    unfold begin
    simp only [h1, ne_eq, not_true_eq_false, if_false, not_lt.mpr h2, not_lt.mpr h3,
      not_lt.mpr h4, not_lt.mpr h5]
  refine ⟨fun h => ⟨hfail s h, by rw [hfail s h], fun hs => by rw [hfail s h]; exact hs⟩,
    hinv, fun h => ?_, fun h => ?_, ⟨fun h => ?_, fun h => ?_⟩⟩
  · rw [hfail (new ops cc3000 port) h]; exact hinv
  · obtain ⟨hc1, hc2⟩ := toUInt32_toInt16 api.socket h.2.1
    rw [hok s h]
    refine ⟨?_, by rw [← hinv]; exact hc2, rfl, rfl, rfl⟩
    show ((toUInt32 (toInt16 api.socket) : Nat) : Int) = toInt16 api.socket
    rw [hc1]
    exact Int.toNat_of_nonneg h.2.1
  · by_contra hne
    apply h
    have hfails : api.netapp_timeout_values 14400 3600 30 0 ≠ 0 ∨ toInt16 api.socket < 0 ∨
        api.setsockopt (toInt16 api.socket) < 0 ∨
        api.bind (toInt16 api.socket) (new ops cc3000 port).port_ < 0 ∨
        api.listen (toInt16 api.socket) 0 < 0 := by
      show _ ∨ _ ∨ _ ∨ api.bind (toInt16 api.socket) port < 0 ∨ _
      by_contra hall
      apply hne
      simp only [not_or, not_lt, ne_eq, not_not] at hall
      exact hall
    rw [hfail (new ops cc3000 port) hfails]
    exact hinv
  · rw [hok (new ops cc3000 port) h, ← hinv]
    exact (toUInt32_toInt16 api.socket h.2.1).2

/-- The invariant of the loop of `write(buffer, size)`, over any list of distinct slots
still to visit. -/
theorem writeLoop_spec (ops : ClientOps C) (sizeBits : Nat) (buffer : List Nat) (size : Nat) :
    ∀ (l : List (Fin SERVER_MAX_CLIENTS)) (st : WriteState C), l.Nodup →
      (writeLoop ops sizeBits buffer size l st).written % 2 ^ sizeBits =
        (st.written + (l.map (fun i => if ops.connected (st.clients i) = true then
          (ops.write (st.clients i) buffer size).1 else 0)).sum) % 2 ^ sizeBits ∧
      (st.written < 2 ^ sizeBits →
        (writeLoop ops sizeBits buffer size l st).written < 2 ^ sizeBits) ∧
      (writeLoop ops sizeBits buffer size l st).calls =
        st.calls ++ l.filter (fun i => ops.connected (st.clients i)) ∧
      (∀ i, (i ∉ l ∨ ops.connected (st.clients i) = false) →
        (writeLoop ops sizeBits buffer size l st).clients i = st.clients i) ∧
      (∀ i, i ∈ l → ops.connected (st.clients i) = true →
        (writeLoop ops sizeBits buffer size l st).clients i =
          (ops.write (st.clients i) buffer size).2) := by
  intro l
  induction l with
  | nil =>
    intro st _
    simp [writeLoop]
  | cons i rest ih =>
    intro st hnd
    obtain ⟨hi, hrest⟩ := List.nodup_cons.mp hnd
    cases hc : ops.connected (st.clients i) with
    | false =>
      have hF : writeLoop ops sizeBits buffer size (i :: rest) st =
          writeLoop ops sizeBits buffer size rest st := by
        simp [writeLoop, hc]
      obtain ⟨h1, h2, h3, h4, h5⟩ := ih st hrest
      rw [hF]
      refine ⟨by rw [h1]; simp [hc], h2, by rw [h3]; simp [hc], fun j hj => ?_,
        fun j hj hcj => ?_⟩
      · apply h4
        by_cases hji : j = i
        · subst hji; exact Or.inr hc
        · rcases hj with hj | hj
          · exact Or.inl (fun hm => hj (List.mem_cons_of_mem _ hm))
          · exact Or.inr hj
      · rcases List.mem_cons.mp hj with hj | hj
        · subst hj; rw [hc] at hcj; exact Bool.noConfusion hcj
        · exact h5 j hj hcj
    | true =>
      obtain ⟨st1, hF, hcl, hw, hcalls⟩ : ∃ st1 : WriteState C,
          writeLoop ops sizeBits buffer size (i :: rest) st =
            writeLoop ops sizeBits buffer size rest st1 ∧
          st1.clients = Function.update st.clients i (ops.write (st.clients i) buffer size).2 ∧
          st1.written = (st.written + (ops.write (st.clients i) buffer size).1) % 2 ^ sizeBits ∧
          st1.calls = st.calls ++ [i] :=
        ⟨{ clients := Function.update st.clients i (ops.write (st.clients i) buffer size).2,
            written := (st.written + (ops.write (st.clients i) buffer size).1) % 2 ^ sizeBits,
            calls := st.calls ++ [i] },
          by simp only [writeLoop, hc, if_true], rfl, rfl, rfl⟩
      have hne : ∀ j, j ≠ i → st1.clients j = st.clients j := by
        intro j hj
        rw [hcl]
        exact Function.update_noteq hj _ _
      have hsame : ∀ j ∈ rest, st1.clients j = st.clients j :=
        fun j hj => hne j (by rintro rfl; exact hi hj)
      obtain ⟨h1, h2, h3, h4, h5⟩ := ih st1 hrest
      rw [hF]
      refine ⟨?_, fun _ => h2 (by rw [hw]; exact Nat.mod_lt _ (Nat.two_pow_pos _)), ?_,
        fun j hj => ?_, fun j hj hcj => ?_⟩
      · rw [h1, hw]
        have hmap : rest.map (fun j => if ops.connected (st1.clients j) = true
              then (ops.write (st1.clients j) buffer size).1 else 0) =
            rest.map (fun j => if ops.connected (st.clients j) = true then
              (ops.write (st.clients j) buffer size).1 else 0) :=
          List.map_congr_left (fun j hj => by rw [hsame j hj])
        simp only [hmap, List.map_cons, List.sum_cons, hc, if_true]
        rw [Nat.add_mod, Nat.mod_mod, ← Nat.add_mod, Nat.add_assoc]
      · rw [h3, hcalls]
        have hfil : rest.filter (fun j => ops.connected (st1.clients j)) =
            rest.filter (fun j => ops.connected (st.clients j)) :=
          List.filter_congr (fun j hj => by rw [hsame j hj])
        simp [hfil, hc]
      · have hji : j ≠ i := by
          rintro rfl
          rcases hj with hj | hj
          · exact hj (List.mem_cons_self _ _)
          · rw [hc] at hj; exact Bool.noConfusion hj
        rw [h4 j (by
          rcases hj with hj | hj
          · exact Or.inl (fun hm => hj (List.mem_cons_of_mem _ hm))
          · exact Or.inr (by rw [hne j hji]; exact hj))]
        exact hne j hji
      · by_cases hji : j = i
        · subst hji
          rw [h4 j (Or.inl hi), hcl]
          simp
        · have hj' : j ∈ rest := by
            rcases List.mem_cons.mp hj with hj | hj
            · exact absurd hj hji
            · exact hj
          rw [h5 j hj' (by rw [hsame j hj']; exact hcj), hsame j hj']

/-- Claim C5, as stated, fails: with a 16-bit `size_t` and three connected clients that
each write all 30000 bytes, the per-slot results sum to 90000 while `write` returns
24464. -/
theorem write_sum_overflow :
    (write simOps 16 fullPool (List.replicate 30000 0) 30000).written = 24464 ∧
    (∑ i : Fin SERVER_MAX_CLIENTS, if simOps.connected (fullPool.clients_ i) = true then
      (simOps.write (fullPool.clients_ i) (List.replicate 30000 0) 30000).1 else 0) = 90000 ∧
    (write simOps 16 fullPool (List.replicate 30000 0) 30000).written ≠
      ∑ i : Fin SERVER_MAX_CLIENTS, if simOps.connected (fullPool.clients_ i) = true then
        (simOps.write (fullPool.clients_ i) (List.replicate 30000 0) 30000).1 else 0 := by
  have h1 : (write simOps 16 fullPool (List.replicate 30000 0) 30000).written = 24464 := by
    decide
  have h2 : (∑ i : Fin SERVER_MAX_CLIENTS, if simOps.connected (fullPool.clients_ i) = true then
      (simOps.write (fullPool.clients_ i) (List.replicate 30000 0) 30000).1 else 0) = 90000 := by
    rw [Fin.sum_univ_three]
    decide
  exact ⟨h1, h2, by rw [h1, h2]; decide⟩

/-- Claim C5, amended: `write(buffer, size)` returns the sum, reduced modulo `2 ^ sizeBits`
for a `size_t` of `sizeBits` bits, of the values `clients_[i].write(buffer, size)` returns
over the slots that report connected, which is that sum itself whenever it is below
`2 ^ sizeBits`; `write` is called on the connected slots, in ascending order, and on no
other slot; a slot that reports not connected keeps its client; the result is 0 when no
slot is connected; and `write(value)` is `write(&value, 1)`. -/
theorem write_sum_mod (ops : ClientOps C) (sizeBits : Nat) (s : SFE_CC3000_Server C)
    (buffer : List Nat) (size value : Nat) :
    (write ops sizeBits s buffer size).written =
      (∑ i : Fin SERVER_MAX_CLIENTS, if ops.connected (s.clients_ i) = true then
        (ops.write (s.clients_ i) buffer size).1 else 0) % 2 ^ sizeBits ∧
    ((∑ i : Fin SERVER_MAX_CLIENTS, if ops.connected (s.clients_ i) = true then
        (ops.write (s.clients_ i) buffer size).1 else 0) < 2 ^ sizeBits →
      (write ops sizeBits s buffer size).written =
        ∑ i : Fin SERVER_MAX_CLIENTS, if ops.connected (s.clients_ i) = true then
          (ops.write (s.clients_ i) buffer size).1 else 0) ∧
    (write ops sizeBits s buffer size).calls =
      slotIndices.filter (fun i => ops.connected (s.clients_ i)) ∧
    (∀ i, ops.connected (s.clients_ i) = false →
      i ∉ (write ops sizeBits s buffer size).calls ∧
      (write ops sizeBits s buffer size).clients i = s.clients_ i) ∧
    (∀ i, ops.connected (s.clients_ i) = true →
      (write ops sizeBits s buffer size).clients i = (ops.write (s.clients_ i) buffer size).2) ∧
    ((∀ i, ops.connected (s.clients_ i) = false) →
      (write ops sizeBits s buffer size).written = 0) ∧
    writeByte ops sizeBits s value = write ops sizeBits s [value] 1 := by
  obtain ⟨h1, h2, h3, h4, h5⟩ := writeLoop_spec ops sizeBits buffer size slotIndices
    { clients := s.clients_, written := 0, calls := [] } (List.nodup_finRange _)
  have hlt : (write ops sizeBits s buffer size).written < 2 ^ sizeBits :=
    h2 (Nat.two_pow_pos _)
  have hsum : (write ops sizeBits s buffer size).written =
      (∑ i : Fin SERVER_MAX_CLIENTS, if ops.connected (s.clients_ i) = true then
        (ops.write (s.clients_ i) buffer size).1 else 0) % 2 ^ sizeBits := by
    rw [Fin.sum_univ_def, ← Nat.mod_eq_of_lt hlt]
    simpa using h1
  have hcalls : (write ops sizeBits s buffer size).calls =
      slotIndices.filter (fun i => ops.connected (s.clients_ i)) := by
    simpa using h3
  refine ⟨hsum, fun h => by rw [hsum, Nat.mod_eq_of_lt h], hcalls, fun i hi => ⟨?_, ?_⟩,
    fun i hi => h5 i (List.mem_finRange i) hi, fun hall => ?_, rfl⟩
  · rw [hcalls, List.mem_filter]
    rintro ⟨_, hc⟩
    rw [hi] at hc
    exact Bool.noConfusion hc
  · exact h4 i (Or.inr hi)
  · rw [hsum]
    simp [hall]

/-! ## The theorems at concrete pools -/

/-- Claim C1 at the pool `twoReady`: slots 0 and 2 are ready, slot 1 is not connected, and
the index returned is 0. -/
theorem availableIndex_lowest_witness :
    (availableIndex simOps onePending twoReady [] none).index = 0 ∧
    (availableIndex simOps onePending twoReady [] none).index ≠ 2 :=
  (availableIndex_lowest simOps onePending twoReady [] none).2.2.2
    (by decide) (by decide) (by decide)

/-- Claim C2 at the pool `twoReady` with one connection pending: the connected slot 0
keeps its client and the not-connected slot 1 has one `accept` call. -/
theorem acceptNewConnections_frame_witness :
    simOps.connected (twoReady.clients_ 0) = true ∧
    simOps.connected (twoReady.clients_ 1) = false ∧
    ∃ calls : List AcceptCall,
      (acceptNewConnections simOps onePending twoReady []).2.2 = [] ++ calls ∧
      (calls.filter (fun e => decide (e.slot = 0)) = [] ∧
        (acceptNewConnections simOps onePending twoReady []).2.1.clients_ 0 =
          twoReady.clients_ 0) ∧
      ∃ e, calls.filter (fun e => decide (e.slot = 1)) = [e] := by
  obtain ⟨calls, h1, _, h3, h4, _⟩ := acceptNewConnections_frame simOps onePending twoReady []
  obtain ⟨e, he, _⟩ := h4 1 (by decide)
  exact ⟨by decide, by decide, calls, h1, h3 0 (by decide), e, he⟩

/-- Claim C3 at the pool `fullPool`: every slot is connected and the result is false. -/
theorem acceptNewConnections_result_witness :
    (∀ i, simOps.connected (fullPool.clients_ i) = true) ∧
    (acceptNewConnections simOps onePending fullPool []).1 = false :=
  ⟨by decide, (acceptNewConnections_result simOps onePending fullPool []).2.1 (by decide)⟩

/-- Claim C4 at the null handle `getClientRef(-1)` over the clients of `fullPool`. -/
theorem null_handle_safe_witness :
    (getClientRef (-1)).client_ = none ∧
    (getClientRef (-1)).toBool simOps fullPool.clients_ = some false ∧
    (getClientRef (-1)).connectIp simOps fullPool.clients_ 1 80 = some (0, fullPool.clients_) ∧
    (getClientRef (-1)).connectHost simOps fullPool.clients_ [104] 80 =
      some (0, fullPool.clients_) ∧
    (getClientRef (-1)).connected simOps fullPool.clients_ = some (0, fullPool.clients_) ∧
    (getClientRef (-1)).available simOps fullPool.clients_ = some (0, fullPool.clients_) ∧
    (getClientRef (-1)).read simOps fullPool.clients_ = some (0, fullPool.clients_) ∧
    (getClientRef (-1)).readBuf simOps fullPool.clients_ 4 =
      some ((0, []), fullPool.clients_) ∧
    (getClientRef (-1)).peek simOps fullPool.clients_ = some (0, fullPool.clients_) ∧
    (getClientRef (-1)).writeByte simOps fullPool.clients_ 7 = some (0, fullPool.clients_) ∧
    (getClientRef (-1)).write simOps fullPool.clients_ [7, 8] 2 =
      some (0, fullPool.clients_) ∧
    (getClientRef (-1)).close simOps fullPool.clients_ = some (0, fullPool.clients_) ∧
    (getClientRef (-1)).flush simOps fullPool.clients_ = some fullPool.clients_ ∧
    (getClientRef (-1)).stop simOps fullPool.clients_ = some fullPool.clients_ :=
  ⟨by decide,
    null_handle_safe simOps fullPool.clients_ (getClientRef (-1)) (by decide) 1 80 7 4 [104]
      [7, 8]⟩

/-- Claim C5, amended, at the pool `fullPool` with a 16-bit `size_t`: three clients write
two bytes each, the sum 6 is below `2 ^ 16` and is the result. -/
theorem write_sum_mod_witness :
    (∑ i : Fin SERVER_MAX_CLIENTS, if simOps.connected (fullPool.clients_ i) = true then
        (simOps.write (fullPool.clients_ i) [7, 8] 2).1 else 0) = 6 ∧
    (write simOps 16 fullPool [7, 8] 2).written =
      ∑ i : Fin SERVER_MAX_CLIENTS, if simOps.connected (fullPool.clients_ i) = true then
        (simOps.write (fullPool.clients_ i) [7, 8] 2).1 else 0 :=
  have hsum : (∑ i : Fin SERVER_MAX_CLIENTS,
      if simOps.connected (fullPool.clients_ i) = true then
        (simOps.write (fullPool.clients_ i) [7, 8] 2).1 else 0) = 6 := by
    rw [Fin.sum_univ_three]; decide
  ⟨hsum, (write_sum_mod simOps 16 fullPool [7, 8] 2 0).2.1 (by rw [hsum]; decide)⟩

/-- Claim C6, amended, at a server as constructed with `bind` failing: `listenSocket_`
stays 4294967295. -/
theorem begin_listening_witness :
    bindFails.bind (toInt16 bindFails.socket) 80 < 0 ∧
    (begin bindFails (new simOps 0 80)).listenSocket_ = 4294967295 :=
  ⟨by decide, (begin_listening simOps bindFails (new simOps 0 80) 0 80).2.2.1
    (Or.inr (Or.inr (Or.inr (Or.inl (by decide)))))⟩

/-- Claim C8 at a server as constructed, after a successful `begin`, with one connection
pending. -/
theorem availableIndex_newClient_witness :
    simOps.connected ((begin onePending (new simOps 0 80)).clients_ 0) = false ∧
    (availableIndex simOps onePending (begin onePending (new simOps 0 80)) []
      (some false)).newClient = some true ∧
    simOps.connected ((availableIndex simOps onePending (begin onePending (new simOps 0 80)) []
      (some false)).server.clients_ 0) = true ∧
    (availableIndex simOps onePending
      (availableIndex simOps onePending (begin onePending (new simOps 0 80)) []
        (some false)).server
      (availableIndex simOps onePending (begin onePending (new simOps 0 80)) []
        (some false)).log (some true)).newClient = some false ∧
    simOps.connected ((availableIndex simOps onePending
      (availableIndex simOps onePending (begin onePending (new simOps 0 80)) []
        (some false)).server
      (availableIndex simOps onePending (begin onePending (new simOps 0 80)) []
        (some false)).log (some true)).server.clients_ 0) = true :=
  have h := availableIndex_newClient simOps onePending (begin onePending (new simOps 0 80)) []
    false true 1 (by decide) (by decide) (by decide)
    (fun k hk => by
      have hk0 : k ≠ 0 := Nat.pos_iff_ne_zero.mp hk
      simp [onePending, hk0])
    (by decide)
  ⟨by decide, h.1, h.2.2.1, h.2.2.2.1, h.2.2.2.2.1⟩

/-- Claim C9 at a server as constructed when every `accept` returns `-1`. -/
theorem available_none_pending_witness :
    (∀ i, simOps.connected ((new simOps 0 80).clients_ i) = false) ∧
    (availableIndex simOps bindFails (new simOps 0 80) [] none).index = -1 ∧
    (getClientRef (-1)).client_ = none ∧
    (available simOps bindFails (new simOps 0 80) []).1.client_ = none ∧
    SFE_CC3000_ClientRef.toBool simOps (available simOps bindFails (new simOps 0 80) []).2.1.clients_
      (available simOps bindFails (new simOps 0 80) []).1 = some false :=
  ⟨by decide, available_none_pending simOps bindFails (new simOps 0 80) [] none (by decide)
    (fun _ _ => by show (-1 : Int) < 0; decide)⟩

/-- Claim C10 at the pool `twoReady`: the index is 0 and the handle is bound to slot 0. -/
theorem available_in_bounds_witness :
    (availableIndex simOps onePending twoReady [] none).index ≠ -1 ∧
    ∃ i : Fin SERVER_MAX_CLIENTS,
      (availableIndex simOps onePending twoReady [] none).index = (i.val : Int) ∧
      (available simOps onePending twoReady []).1.client_ = some (i.val : Int) ∧
      slotAt (i.val : Int) = some i ∧
      simOps.connected ((available simOps onePending twoReady []).2.1.clients_ i) = true ∧
      simOps.available ((available simOps onePending twoReady []).2.1.clients_ i) > 0 :=
  ⟨by decide, (available_in_bounds simOps onePending twoReady [] none).2.2.2 (by decide)⟩

end SFE_CC3000
